import Mathlib

/-!
# A verification development for the create-fast-dev scaffolding core

This file gives a shallow embedding, in Lean 4, of the template resolution and
transformation pipeline of the `create-fast-dev` repository:

* JS-object helpers (first-binding-wins property lookup, object spread);
* the monorepo detector (`packages/core/src/monorepo/detect.ts`);
* the template descriptor merger (`packages/core/src/templates/config-loader.ts`);
* the transformer registry and transformation engine (`transform/index.ts`);
* the `toggle-feature` and `tsconfig-adapt` built-in transformers.

Modelling conventions:

* Filesystem paths are lists of components, root-first; `[]` is the filesystem
  root `/`; `dirname` is `List.dropLast`.
* JSON values that the code under verification never inspects are modelled by
  the scalar type `JValue` (string arrays, which the code does inspect, get
  their own constructor `strs`).
* Asynchronous filesystem access is modelled by passing an explicit, immutable
  snapshot of the disk (a list of existing paths plus parse results); code
  paths that catch exceptions from `access`/`readFile`/`JSON.parse` are
  modelled by `Option`.
* A JS function that can throw is modelled with `Except`; one that cannot is a
  total Lean function, so "never throws" claims hold by construction.
-/

namespace FastDev

/-- Filesystem paths, root-first; `[]` is the filesystem root `/`. -/
abbrev Path := List String

/-- JSON-ish values, as they occur in `package.json` / `tsconfig.json` /
`fast-dev.config.json`.  Values the code only copies around are scalars;
string arrays (feature lists, answers to multiselect prompts) are `strs`. -/
inductive JValue where
  | str (s : String)
  | num (n : Int)
  | bool (b : Bool)
  | null
  | strs (xs : List String)
deriving DecidableEq, Repr

/-- A JS object, in insertion order. -/
abbrev JObj := List (String × JValue)

/-- JS property lookup on an object: the first binding wins. -/
def jlookup {α : Type} (o : List (String × α)) (k : String) : Option α :=
  match o with
  | [] => none
  | kv :: rest => if kv.1 = k then some kv.2 else jlookup rest k

/-- JS object spread `{...a, ...b}`: `a`'s keys keep their position, with
`b`'s value whenever `b` also binds the key; `b`'s new keys are appended. -/
def objSpread {α : Type} (a b : List (String × α)) : List (String × α) :=
  a.map (fun kv => (kv.1, (jlookup b kv.1).getD kv.2))
    ++ b.filter (fun kv => (jlookup a kv.1).isNone)

/-! ## Monorepo detection (`packages/core/src/monorepo/detect.ts`)

The detector walks upward from a starting directory looking for `turbo.json`,
then derives package-manager and workspace-config facts from the root it
found.  The disk is modelled as an immutable snapshot: the set of paths for
which `access()` succeeds, plus the parse results of `package.json` files. -/

/-- Supported package managers (`PackageManager` in `@repo/shared`). -/
inductive PackageManager where
  | npm
  | yarn
  | pnpm
  | bun
deriving DecidableEq, Repr

/-- The parse result of a `package.json`, restricted to the field the monorepo
detector reads. -/
structure PkgManifest where
  packageManager : Option String
deriving DecidableEq, Repr

/-- A snapshot of the filesystem as seen by the detector: `files` lists the
paths for which `access()` succeeds, `manifests` the paths whose contents read
and `JSON.parse` successfully as a package manifest. -/
structure DiskState where
  files : List Path
  manifests : List (Path × PkgManifest)
deriving DecidableEq, Repr

/-- `access(p)` succeeds. -/
def fileExists (d : DiskState) (p : Path) : Bool :=
  p ∈ d.files

/-- `readFile(p)` + `JSON.parse` of a package manifest; `none` models the
caught exception (missing file or invalid JSON). -/
def readManifest (d : DiskState) (p : Path) : Option PkgManifest :=
  (d.manifests.find? (fun e => e.1 = p)).map (·.2)

/-- The directory contains the workspace-root marker `turbo.json`. -/
def hasTurboMarker (d : DiskState) (dir : Path) : Bool :=
  fileExists d (dir ++ ["turbo.json"])

/-- The fixed lockfile priority list from `detectPackageManagerFromRoot`. -/
def lockfiles : List (String × PackageManager) :=
  [("pnpm-lock.yaml", .pnpm),
   ("yarn.lock", .yarn),
   ("bun.lockb", .bun),
   ("package-lock.json", .npm)]

/-- The `for` loop over `lockfiles`: the first lockfile present in the root
wins; `none` when no lockfile is present. -/
def findLockfilePM (d : DiskState) (rootDir : Path) : Option PackageManager :=
  (lockfiles.find? (fun lf => fileExists d (rootDir ++ [lf.1]))).map (·.2)

/-- `pkg.packageManager.split("@")[0]` checked against the recognised list
`["npm", "yarn", "pnpm", "bun"]`. -/
def parsePackageManager (s : String) : Option PackageManager :=
  if s = "npm" then some .npm
  else if s = "yarn" then some .yarn
  else if s = "pnpm" then some .pnpm
  else if s = "bun" then some .bun
  else none

/-- `detectPackageManagerFromRoot`: first lockfile present wins, else a
recognised (truthy) `packageManager` field of the root `package.json`, else
the Turborepo default `pnpm`. -/
def detectPackageManagerFromRoot (d : DiskState) (rootDir : Path) : PackageManager :=
  match findLockfilePM d rootDir with
  | some pm => pm
  | none =>
    match readManifest d (rootDir ++ ["package.json"]) with
    | some pkg =>
      match pkg.packageManager with
      | some s =>
        if s = "" then .pnpm
        else
          match parsePackageManager ((s.splitOn "@").headD "") with
          | some pm => pm
          | none => .pnpm
      | none => .pnpm
    | none => .pnpm

/-- `findWorkspaceConfig`: only the pnpm convention is known; a single extra
existence check for `pnpm-workspace.yaml`. -/
def findWorkspaceConfig (d : DiskState) (rootDir : Path) (pm : PackageManager) :
    Option Path :=
  if pm = .pnpm then
    if fileExists d (rootDir ++ ["pnpm-workspace.yaml"]) then
      some (rootDir ++ ["pnpm-workspace.yaml"])
    else none
  else none

/-- `MonorepoContext` from `@repo/shared`. -/
structure MonorepoContext where
  isMonorepo : Bool
  rootDir : Path
  turboConfigPath : Option Path
  workspaceConfigPath : Option Path
  packageManager : PackageManager
  baseTsconfig : Option Path
deriving DecidableEq, Repr

/-- `buildMonorepoContext`: derive the context fields from a detected root. -/
def buildMonorepoContext (d : DiskState) (rootDir : Path) : MonorepoContext :=
  let packageManager := detectPackageManagerFromRoot d rootDir
  let baseTsconfigPath := rootDir ++ ["tsconfig.base.json"]
  let baseTsconfig := if fileExists d baseTsconfigPath then some baseTsconfigPath else none
  let workspaceConfigPath := findWorkspaceConfig d rootDir packageManager
  { isMonorepo := true
    rootDir := rootDir
    turboConfigPath := some (rootDir ++ ["turbo.json"])
    workspaceConfigPath := workspaceConfigPath
    packageManager := packageManager
    baseTsconfig := baseTsconfig }

/-- `detectMonorepo`: walk upward from `startDir`; the `while` loop runs while
the current directory is not the filesystem root, probes for `turbo.json`,
and otherwise moves to the parent (`dirname`, i.e. `dropLast`).  Total, hence
it models the source's never-throws contract. -/
def detectMonorepo (d : DiskState) (currentDir : Path) : Option MonorepoContext :=
  if h : currentDir = [] then none
  else if hasTurboMarker d currentDir then some (buildMonorepoContext d currentDir)
  else detectMonorepo d currentDir.dropLast
termination_by currentDir.length
decreasing_by
  simp only [List.length_dropLast]
  have : currentDir.length ≠ 0 := by
    intro hz
    exact h (List.length_eq_zero.mp hz)
  omega

/-! ## Template data model (`@repo/shared` types) -/

/-- Prompt types supported by the CLI. -/
inductive PromptType where
  | text
  | select
  | multiselect
  | confirm
deriving DecidableEq, Repr

/-- Option for select/multiselect prompts. -/
structure PromptOption where
  value : String
  label : String
  hint : Option String
deriving DecidableEq, Repr

/-- Template-specific prompt configuration.  The `validate` callback returns
`true`/`false` or an error string (`boolean | string` in the source). -/
structure TemplatePrompt where
  type : PromptType
  name : String
  message : String
  default : Option JValue := none
  options : Option (List PromptOption) := none
  validate : Option (JValue → Bool ⊕ String) := none

/-- Post-clone action overrides. -/
structure PostActionConfig where
  skipGitInit : Option Bool := none
  skipInstall : Option Bool := none
  customScripts : Option (List String) := none
deriving DecidableEq, Repr

/-- Transform kind discriminator. -/
inductive TransformType where
  | builtin
  | custom
deriving DecidableEq, Repr

/-- Free-form option bag passed to a transformer (`Record<string, unknown>`).
The engine passes it through opaquely, so the engine itself is generic in the
option type `ω`; descriptors use `TransformOptions`. -/
abbrev TransformOptions := JObj

/-- A transform specification: kind, transformer name, optional option bag. -/
structure TemplateTransform (ω : Type) where
  type : TransformType
  transformer : String
  options : Option ω := none
deriving DecidableEq, Repr

/-- The full template descriptor (`Template` in `@repo/shared`). -/
structure Template where
  id : String
  slug : String
  name : String
  description : String
  stackId : String
  gitUrl : String
  branch : Option String := none
  prompts : List TemplatePrompt
  transforms : List (TemplateTransform TransformOptions)
  postActions : Option PostActionConfig := none
  tags : List String
  maintainer : Option String := none
  docsUrl : Option String := none

/-- The `template` metadata block of `fast-dev.config.json`. -/
structure TemplateMeta where
  id : String
  name : String
  description : String
  stack : String
  tags : List String
  maintainer : Option String := none
  docsUrl : Option String := none
deriving DecidableEq, Repr

/-- The `tsconfig` block of the monorepo configuration. -/
structure MonorepoTsconfig where
  «extends» : Option String := none
  overrides : Option JObj := none
deriving DecidableEq, Repr

/-- Monorepo target type: where templates are installed. -/
inductive MonorepoTargetType where
  | app
  | package
deriving DecidableEq, Repr

/-- The `monorepo` block of `fast-dev.config.json`. -/
structure MonorepoConfig where
  enabled : Bool
  type : MonorepoTargetType
  defaultDir : Option String := none
  removeFiles : Option (List String) := none
  workspaceDeps : Option (List String) := none
  tsconfig : Option MonorepoTsconfig := none
deriving DecidableEq, Repr

/-- The declarative configuration artifact (`fast-dev.config.json`).
Optional fields are `Option`: `none` models an absent (undefined) field. -/
structure TemplateConfig where
  version : String
  template : TemplateMeta
  monorepo : Option MonorepoConfig := none
  prompts : Option (List TemplatePrompt) := none
  transforms : Option (List (TemplateTransform TransformOptions)) := none
  features : Option (List (String × List String)) := none
  postActions : Option PostActionConfig := none

/-! ## Template descriptor merger (`packages/core/src/templates/config-loader.ts`) -/

/-- `mergeConfigIntoTemplate`: overwrite identity/metadata fields with the
artifact's values; `prompts`/`transforms`/`postActions` use the JS nullish
coalescing `config.x ?? base.x`, i.e. the artifact's value whenever the field
is supplied (even empty), the base's value only when the field is absent. -/
def mergeConfigIntoTemplate (baseTemplate : Template) (config : TemplateConfig) :
    Template :=
  { baseTemplate with
    id := config.template.id
    name := config.template.name
    description := config.template.description
    stackId := config.template.stack
    tags := config.template.tags
    maintainer := config.template.maintainer
    docsUrl := config.template.docsUrl
    prompts := config.prompts.getD baseTemplate.prompts
    transforms := config.transforms.getD baseTemplate.transforms
    postActions := config.postActions.or baseTemplate.postActions }

/-- `createFallbackTemplate`: the minimal descriptor used when the downloaded
tree has no `fast-dev.config.json` — a single `rename-package` transform. -/
def createFallbackTemplate (gitUrl : String) (branch : Option String) : Template :=
  { id := "custom"
    slug := "custom"
    name := "Custom Template"
    description := "Template without fast-dev.config.json"
    stackId := "custom"
    gitUrl := gitUrl
    branch := branch
    prompts := []
    transforms := [{ type := .builtin, transformer := "rename-package" }]
    tags := [] }

/-! ## Transformer registry and transformation engine (`transform/index.ts`)

A transformer mutates the downloaded project tree; the engine treats it as an
opaque named behaviour, so the embedding is generic in the world type `σ`
(the mutable state transformers act on), the option type `ω` and the error
type `ε`.  A behaviour either completes with a new world or throws.  The
claims about the engine hold for every behaviour, so the four seeded built-in
behaviours are parameters of the registry; the behaviours of `toggle-feature`
and `tsconfig-adapt` are modelled concretely further below, each over its own
specialised world. -/

/-- The `Transformer` interface: a named, described behaviour. -/
structure Transformer (σ ω ε : Type) where
  name : String
  description : String
  transform : σ → Option ω → Except ε σ

/-- JS `Map.get`. -/
def mapGet {α : Type} (m : List (String × α)) (k : String) : Option α :=
  jlookup m k

/-- JS `Map.set`: overwrite in place when the key exists, append otherwise. -/
def mapSet {α : Type} (m : List (String × α)) (k : String) (v : α) :
    List (String × α) :=
  match m with
  | [] => [(k, v)]
  | kv :: rest => if kv.1 = k then (k, v) :: rest else kv :: mapSet rest k v

/-- `renamePackageTransformer`, behaviour abstracted. -/
def renamePackageTransformer {σ ω ε : Type} (b : σ → Option ω → Except ε σ) :
    Transformer σ ω ε :=
  { name := "rename-package"
    description := "Updates package.json name, version, and clears template-specific fields"
    transform := b }

/-- `envSetupTransformer`, behaviour abstracted. -/
def envSetupTransformer {σ ω ε : Type} (b : σ → Option ω → Except ε σ) :
    Transformer σ ω ε :=
  { name := "env-setup"
    description := "Creates .env from .env.example with variable substitution"
    transform := b }

/-- `toggleFeatureTransformer`, behaviour abstracted (the concrete behaviour
is modelled below as `toggleFeatureTransform`). -/
def toggleFeatureTransformer {σ ω ε : Type} (b : σ → Option ω → Except ε σ) :
    Transformer σ ω ε :=
  { name := "toggle-feature"
    description := "Removes files for unselected features"
    transform := b }

/-- `readmePersonalizeTransformer`, behaviour abstracted. -/
def readmePersonalizeTransformer {σ ω ε : Type} (b : σ → Option ω → Except ε σ) :
    Transformer σ ω ε :=
  { name := "readme-personalize"
    description := "Personalizes README with project name and description"
    transform := b }

/-- The registry of built-in transformers, exactly as seeded by the `Map`
literal in `transform/index.ts`: four entries — `rename-package`, `env-setup`,
`toggle-feature`, `readme-personalize`.  (`monorepo-adapt` and
`tsconfig-adapt` exist as transformers in the repository but are absent from
this literal, and no caller ever invokes `registerTransformer` on them.) -/
def builtinTransformers {σ ω ε : Type}
    (renameB envB toggleB readmeB : σ → Option ω → Except ε σ) :
    List (String × Transformer σ ω ε) :=
  [("rename-package", renamePackageTransformer renameB),
   ("env-setup", envSetupTransformer envB),
   ("toggle-feature", toggleFeatureTransformer toggleB),
   ("readme-personalize", readmePersonalizeTransformer readmeB)]

/-- `registerTransformer`: extend the registry at runtime. -/
def registerTransformer {σ ω ε : Type} (reg : List (String × Transformer σ ω ε))
    (t : Transformer σ ω ε) : List (String × Transformer σ ω ε) :=
  mapSet reg t.name t

/-- `getTransformer`: resolve a transformer by name. -/
def getTransformer {σ ω ε : Type} (reg : List (String × Transformer σ ω ε))
    (name : String) : Option (Transformer σ ω ε) :=
  mapGet reg name

/-- Logger calls made by the engine. -/
inductive LogEntry where
  | debug (msg : String)
  | warn (msg : String)
  | error (msg : String)
deriving DecidableEq, Repr

/-- `runTransformations`: iterate the transform list in order.  An
unregistered name is a logged skip; a resolving entry is invoked with the
current world and its option bag; a thrown error is logged and rethrown.
Result: the log, the world as left behind (on error: the world before the
failing transformer — nothing is rolled back), and the propagated error, if
any. -/
def runTransformations {σ ω ε : Type} (get : String → Option (Transformer σ ω ε)) :
    List (TemplateTransform ω) → σ → List LogEntry × σ × Option ε
  | [], st => ([], st, none)
  | t :: rest, st =>
    match get t.transformer with
    | none =>
      let r := runTransformations get rest st
      (.warn ("Unknown transformer: " ++ t.transformer ++ ", skipping...") :: r.1, r.2)
    | some tr =>
      match tr.transform st t.options with
      | .ok st2 =>
        let r := runTransformations get rest st2
        (.debug ("Running transformer: " ++ tr.name)
          :: .debug ("Completed transformer: " ++ tr.name) :: r.1, r.2)
      | .error e =>
        ([.debug ("Running transformer: " ++ tr.name),
          .error ("Transformer " ++ tr.name ++ " failed:")], st, some e)

/-! ## Execution context (`TransformContext` in `@repo/shared`) -/

/-- Installation mode. -/
inductive InstallationMode where
  | standalone
  | monorepo
deriving DecidableEq, Repr

/-- The execution context built once per scaffold operation and passed to
every transformer. -/
structure TransformContext where
  projectPath : Path
  projectName : String
  answers : JObj
  template : Template
  mode : InstallationMode
  monorepoContext : Option MonorepoContext := none
  templateConfig : Option TemplateConfig := none

/-! ## The `toggle-feature` transformer (`transform/builtin/toggle-feature.ts`)

Its world is the project file tree: the list of existing files, where the
in-tree feature map `.fast-dev/features.json` carries its parse result
(`fmap`); any other content (`text`) fails the `JSON.parse` of the feature
map.  Relative path strings from the feature map are modelled pre-split into
components. -/

/-- File contents, at the granularity this transformer observes. -/
inductive FData where
  | text (s : String)
  | fmap (m : List (String × List Path))
deriving DecidableEq, Repr

/-- A project file tree: existing files with their contents.  Directories are
implied by the files below them. -/
abbrev FileTree := List (Path × FData)

/-- `rm(target, { recursive: true, force: true })`: drop the file at `target`
and everything below it; a no-op when nothing is there. -/
def rmRec (tree : FileTree) (target : Path) : FileTree :=
  tree.filter (fun e => !(List.isPrefixOf target e.1))

/-- Read and parse `.fast-dev/features.json`; `none` models the caught
exception (missing file or invalid JSON). -/
def readFeaturesFile (tree : FileTree) (p : Path) : Option (List (String × List Path)) :=
  match tree.find? (fun e => e.1 == p) with
  | some (_, .fmap m) => some m
  | _ => none

/-- Options of the `toggle-feature` transformer. -/
structure ToggleOpts where
  featureKey : Option String := none
  featureMap : Option (List (String × List Path)) := none
deriving DecidableEq, Repr

/-- `opts?.featureKey ?? "features"`. -/
def toggleFeatureKey (opts : Option ToggleOpts) : String :=
  (opts.bind (·.featureKey)).getD "features"

/-- `(ctx.answers[featureKey] as string[]) ?? []`: the selected feature
names.  A missing answer is the empty selection; the `as string[]` cast means
only string-array answers are meaningful. -/
def toggleSelected (ctx : TransformContext) (opts : Option ToggleOpts) : List String :=
  match jlookup ctx.answers (toggleFeatureKey opts) with
  | some (.strs xs) => xs
  | _ => []

/-- `opts?.featureMap ?? {}`. -/
def toggleBaseMap (opts : Option ToggleOpts) : List (String × List Path) :=
  (opts.bind (·.featureMap)).getD []

/-- The path of the in-tree feature map. -/
def featuresFilePath (ctx : TransformContext) : Path :=
  ctx.projectPath ++ [".fast-dev", "features.json"]

/-- The feature map actually pruned against: the options-supplied map,
spread-merged with the in-tree map when the latter parses
(`{ ...featureMap, ...JSON.parse(configContent) }`). -/
def toggleMergedMap (ctx : TransformContext) (opts : Option ToggleOpts)
    (tree : FileTree) : List (String × List Path) :=
  match readFeaturesFile tree (featuresFilePath ctx) with
  | some m => objSpread (toggleBaseMap opts) m
  | none => toggleBaseMap opts

/-- The pruning loop: for every feature not in the selected set, remove each
of its mapped paths (resolved against the project path). -/
def removeFeaturePaths (projectPath : Path) (selected : List String)
    (m : List (String × List Path)) (tree : FileTree) : FileTree :=
  m.foldl
    (fun acc kv =>
      if kv.1 ∈ selected then acc
      else kv.2.foldl (fun t p => rmRec t (projectPath ++ p)) acc)
    tree

/-- The roots slated for removal by a feature map and a selected set. -/
def removalRoots (m : List (String × List Path)) (selected : List String) :
    List Path :=
  m.foldr (fun kv acc => if kv.1 ∈ selected then acc else kv.2 ++ acc) []

/-- `toggleFeatureTransformer.transform`: prune unselected features, then
remove the `.fast-dev` directory. -/
def toggleFeatureTransform (ctx : TransformContext) (opts : Option ToggleOpts)
    (tree : FileTree) : FileTree :=
  let selected := toggleSelected ctx opts
  let featureMap := toggleMergedMap ctx opts tree
  let tree1 := removeFeaturePaths ctx.projectPath selected featureMap tree
  rmRec tree1 (ctx.projectPath ++ [".fast-dev"])

/-! ## The `tsconfig-adapt` transformer (`transform/builtin/tsconfig-adapt.ts`)

Its world is the state of the project's `tsconfig.json`: missing, unparsable,
or a parsed configuration (an `extends` reference, an optional
`compilerOptions` object, and the remaining fields, which it never touches). -/

/-- A parsed `tsconfig.json`. -/
structure TsConfigFile where
  «extends» : Option String := none
  compilerOptions : Option JObj := none
  rest : JObj := []
deriving DecidableEq, Repr

/-- The observable state of the project's `tsconfig.json`. -/
inductive TsFileState where
  | missing
  | invalid
  | parsed (tc : TsConfigFile)
deriving DecidableEq, Repr

/-- The `compilerOptions` of a parsed state. -/
def stateCompilerOptions : TsFileState → Option JObj
  | .parsed tc => tc.compilerOptions
  | _ => none

/-- Length of the common prefix of two paths. -/
def commonPrefixLen : Path → Path → Nat
  | a :: as, b :: bs => if a = b then commonPrefixLen as bs + 1 else 0
  | _, _ => 0

/-- `path.relative(fromP, toP)` for absolute paths: climb out of the
non-shared part of `fromP`, then descend into `toP`. -/
def relPath (fromP toP : Path) : Path :=
  let c := commonPrefixLen fromP toP
  List.replicate (fromP.length - c) ".." ++ toP.drop c

/-- Render a relative path as the string stored in `extends`. -/
def pathToString (p : Path) : String :=
  String.intercalate "/" p

/-- `tsconfigAdaptTransformer.transform`: only in monorepo mode with a
monorepo context; skip without tsconfig settings and base tsconfig, on a
missing file, or on invalid JSON; otherwise update `extends` (explicit
setting first, else the relative path to the shared base config) and
spread-merge the configured compiler-option overrides. -/
def tsconfigAdaptTransform (ctx : TransformContext) (file : TsFileState) :
    TsFileState :=
  if ctx.mode ≠ InstallationMode.monorepo then file
  else
    match ctx.monorepoContext with
    | none => file
    | some mc =>
      let tsconfigSettings := (ctx.templateConfig.bind (·.monorepo)).bind (·.tsconfig)
      if tsconfigSettings.isNone && mc.baseTsconfig.isNone then file
      else
        match file with
        | .missing => file
        | .invalid => file
        | .parsed tsconfig =>
          let relativePath := relPath ctx.projectPath mc.rootDir
          let tc1 :=
            match tsconfigSettings.bind (·.«extends») with
            | some e => { tsconfig with «extends» := some e }
            | none =>
              match mc.baseTsconfig with
              | some _ =>
                { tsconfig with
                  «extends» := some (pathToString (relativePath ++ ["tsconfig.base.json"])) }
              | none => tsconfig
          let tc2 :=
            match tsconfigSettings.bind (·.overrides) with
            | some ovr =>
              { tc1 with compilerOptions := some (objSpread (tc1.compilerOptions.getD []) ovr) }
            | none => tc1
          .parsed tc2

/-! ## Concrete sample instances, used to evaluate the embedding on closed
inputs -/

/-- A sample disk: a workspace root `/ws` holding the marker and a pnpm
lockfile, with a project requested below `/ws/apps` (spec scenario A). -/
def sampleDisk : DiskState :=
  { files := [["ws", "turbo.json"], ["ws", "pnpm-lock.yaml"]]
    manifests := [] }

/-- A sample disk with a workspace root `/ws2` holding the marker, no
lockfile, and a root manifest whose `packageManager` field is the empty —
hence falsy — string, one of the fall-through cases of the default tier. -/
def sampleDiskEmptyField : DiskState :=
  { files := [["ws2", "turbo.json"]]
    manifests := [(["ws2", "package.json"], { packageManager := some "" })] }

/-- A sample monorepo context: workspace root `/ws` with a base tsconfig. -/
def sampleMonorepoCtx : MonorepoContext :=
  { isMonorepo := true
    rootDir := ["ws"]
    turboConfigPath := some ["ws", "turbo.json"]
    workspaceConfigPath := none
    packageManager := .pnpm
    baseTsconfig := some ["ws", "tsconfig.base.json"] }

/-- A sample configuration artifact declaring monorepo support with
compiler-option overrides. -/
def sampleTemplateConfig : TemplateConfig :=
  { version := "1.0"
    template := { id := "t", name := "T", description := "T",
                  stack := "nextjs", tags := [] }
    monorepo := some
      { enabled := true
        type := .app
        tsconfig := some { overrides := some [("outDir", .str "dist")] } } }

/-- A sample execution context for an app at `/ws/apps/my-app` in monorepo
mode. -/
def sampleCtx : TransformContext :=
  { projectPath := ["ws", "apps", "my-app"]
    projectName := "my-app"
    answers := []
    template := createFallbackTemplate "github:test/base" none
    mode := .monorepo
    monorepoContext := some sampleMonorepoCtx
    templateConfig := some sampleTemplateConfig }

/-- A sample parsed project tsconfig with two pre-existing options. -/
def sampleTsFile : TsConfigFile :=
  { «extends» := some "./base.json"
    compilerOptions := some [("strict", .bool true), ("target", .str "ES2022")] }

/-- A sample standalone context for feature pruning at `/p` with no
answers, so no feature is selected. -/
def toggleDemoCtx : TransformContext :=
  { projectPath := ["p"]
    projectName := "demo"
    answers := []
    template := createFallbackTemplate "github:test/demo" none
    mode := .standalone }

/-- Sample toggle options whose feature map is shadowed by the in-tree map
of `toggleDemoTree`. -/
def toggleDemoOpts : Option ToggleOpts :=
  some { featureMap := some [("x", [["a"]])] }

/-- A sample project tree: files `a` and `b`, plus an in-tree feature map
that binds feature `x` to `b` — overriding the options entry for `x`. -/
def toggleDemoTree : FileTree :=
  [(["p", "a"], .text "A"), (["p", "b"], .text "B"),
   (["p", ".fast-dev", "features.json"], .fmap [("x", [["b"]])])]

theorem jlookup_append {α : Type} (x y : List (String × α)) (k : String) :
    jlookup (x ++ y) k = (jlookup x k).or (jlookup y k) := by
  induction x with
  | nil => simp [jlookup]
  | cons kv rest ih =>
    by_cases h : kv.1 = k <;> simp [jlookup, h, ih]

theorem jlookup_map_snd {α β : Type} (a : List (String × α))
    (g : String → α → β) (k : String) :
    jlookup (a.map (fun kv => (kv.1, g kv.1 kv.2))) k = (jlookup a k).map (g k) := by
  induction a with
  | nil => simp [jlookup]
  | cons kv rest ih =>
    by_cases h : kv.1 = k
    · subst h; simp [jlookup]
    · simp [jlookup, h, ih]

theorem jlookup_filter_of_none {α : Type} {a : List (String × α)} {k : String}
    (b : List (String × α)) (hak : jlookup a k = none) :
    jlookup (b.filter (fun kv => (jlookup a kv.1).isNone)) k = jlookup b k := by
  induction b with
  | nil => simp
  | cons kv rest ih =>
    by_cases h : kv.1 = k
    · subst h
      simp [hak, jlookup]
    · by_cases hkeep : (jlookup a kv.1).isNone
      · simp [List.filter, hkeep, jlookup, h, ih]
      · simp only [List.filter, hkeep]
        simpa [jlookup, h] using ih

theorem jlookup_filter_of_some {α : Type} {a : List (String × α)} {k : String}
    (b : List (String × α)) (hak : (jlookup a k).isSome) :
    jlookup (b.filter (fun kv => (jlookup a kv.1).isNone)) k = none := by
  induction b with
  | nil => simp [jlookup]
  | cons kv rest ih =>
    by_cases h : kv.1 = k
    · subst h
      have : ¬ (jlookup a kv.1).isNone := by
        simp [Option.isNone] at *
        cases hx : jlookup a kv.1 <;> simp [hx] at hak ⊢
      simp [List.filter, this, ih]
    · by_cases hkeep : (jlookup a kv.1).isNone
      · simp [List.filter, hkeep, jlookup, h, ih]
      · simp only [List.filter, hkeep]
        simpa using ih

/-- The characterising property of JS spread: a later object wins. -/
theorem jlookup_objSpread {α : Type} (a b : List (String × α)) (k : String) :
    jlookup (objSpread a b) k = (jlookup b k).or (jlookup a k) := by
  unfold objSpread
  rw [jlookup_append, jlookup_map_snd a (fun key v => (jlookup b key).getD v) k]
  cases hak : jlookup a k with
  | none =>
    rw [jlookup_filter_of_none b hak]
    cases jlookup b k <;> simp
  | some v =>
    rw [jlookup_filter_of_some b (by simp [hak])]
    cases jlookup b k <;> simp

/-! ## C9: the fallback descriptor -/

/-- C9: for every source location and optional branch, the fallback
descriptor has exactly one transform entry, that entry is a builtin transform
naming `rename-package`, and the prompt list is empty. -/
theorem createFallbackTemplate_single_rename_transform
    (gitUrl : String) (branch : Option String) :
    (createFallbackTemplate gitUrl branch).transforms.length = 1
    ∧ (∀ t ∈ (createFallbackTemplate gitUrl branch).transforms,
        t.type = TransformType.builtin ∧ t.transformer = "rename-package")
    ∧ (createFallbackTemplate gitUrl branch).prompts = [] := by
  refine ⟨rfl, ?_, rfl⟩
  intro t ht
  simp only [createFallbackTemplate, List.mem_singleton] at ht
  subst ht
  exact ⟨rfl, rfl⟩

/-! ## C4: merging the configuration artifact into a descriptor

The source merges with JS nullish coalescing (`config.x ?? base.x`), so a
supplied-but-empty `prompts`/`transforms` list *does* replace the base
descriptor's (only an absent field preserves it) — refuting the claim that
empty supplied values are kept, and establishing the amended preservation
property. -/

/-- C4 counterexample: an artifact that supplies *empty* `prompts` and
`transforms` lists replaces the base descriptor's non-empty lists, so the
merged descriptor does not keep the base's values. -/
theorem mergeConfig_empty_supplied_lists_replace :
    (mergeConfigIntoTemplate
      { id := "base", slug := "base", name := "Base Template",
        description := "Base description", stackId := "base",
        gitUrl := "github:test/base",
        prompts := [{ type := .text, name := "author", message := "Author?" }],
        transforms := [{ type := .builtin, transformer := "rename-package" }],
        tags := ["base"] }
      { version := "1.0",
        template := { id := "t", name := "T", description := "T",
                      stack := "nextjs", tags := [] },
        prompts := some [], transforms := some [] }).prompts = []
    ∧ (mergeConfigIntoTemplate
      { id := "base", slug := "base", name := "Base Template",
        description := "Base description", stackId := "base",
        gitUrl := "github:test/base",
        prompts := [{ type := .text, name := "author", message := "Author?" }],
        transforms := [{ type := .builtin, transformer := "rename-package" }],
        tags := ["base"] }
      { version := "1.0",
        template := { id := "t", name := "T", description := "T",
                      stack := "nextjs", tags := [] },
        prompts := some [], transforms := some [] }).transforms = []
    ∧ ([{ type := .text, name := "author", message := "Author?" }] :
        List TemplatePrompt) ≠ []
    ∧ ([{ type := .builtin, transformer := "rename-package" }] :
        List (TemplateTransform TransformOptions)) ≠ [] := by
  refine ⟨rfl, rfl, by simp, by simp⟩

/-- C4 (amended): `merge` keeps the base descriptor's prompts, transforms and
post-action overrides exactly when the artifact omits the field, and replaces
them with the artifact's value — empty or not — whenever the field is
supplied. -/
theorem mergeConfig_preserves_omitted_replaces_supplied
    (base : Template) (config : TemplateConfig) :
    (config.prompts = none →
      (mergeConfigIntoTemplate base config).prompts = base.prompts)
    ∧ (∀ v, config.prompts = some v →
      (mergeConfigIntoTemplate base config).prompts = v)
    ∧ (config.transforms = none →
      (mergeConfigIntoTemplate base config).transforms = base.transforms)
    ∧ (∀ v, config.transforms = some v →
      (mergeConfigIntoTemplate base config).transforms = v)
    ∧ (config.postActions = none →
      (mergeConfigIntoTemplate base config).postActions = base.postActions)
    ∧ (∀ v, config.postActions = some v →
      (mergeConfigIntoTemplate base config).postActions = some v) := by
  refine ⟨?_, ?_, ?_, ?_, ?_, ?_⟩ <;>
    first
    | (intro h; simp [mergeConfigIntoTemplate, h, Option.or])
    | (intro v h; simp [mergeConfigIntoTemplate, h, Option.or])

/-- C4 witness: on a concrete base descriptor and a concrete artifact that
omits `prompts`, the merged descriptor keeps the base prompts. -/
theorem mergeConfig_preserves_omitted_witness :
    (mergeConfigIntoTemplate
      { id := "base", slug := "base", name := "Base Template",
        description := "Base description", stackId := "base",
        gitUrl := "github:test/base",
        prompts := [{ type := .text, name := "author", message := "Author?" }],
        transforms := [{ type := .builtin, transformer := "rename-package" }],
        tags := ["base"] }
      { version := "1.0",
        template := { id := "t", name := "T", description := "T",
                      stack := "nextjs", tags := [] } }).prompts
      = [{ type := .text, name := "author", message := "Author?" }] :=
  (mergeConfig_preserves_omitted_replaces_supplied _ _).1 rfl

/-! ## Engine theorems -/

/-- Compositionality of the engine: when a prefix of the transform list runs
without error, running the whole list first produces the prefix's log and
then continues from the prefix's final world. -/
theorem runTransformations_append_ok {σ ω ε : Type}
    (get : String → Option (Transformer σ ω ε))
    (ts1 ts2 : List (TemplateTransform ω)) (st st1 : σ) (l1 : List LogEntry)
    (h : runTransformations get ts1 st = (l1, st1, none)) :
    runTransformations get (ts1 ++ ts2) st
      = (l1 ++ (runTransformations get ts2 st1).1,
         (runTransformations get ts2 st1).2) := by
  induction ts1 generalizing st l1 with
  | nil =>
    simp only [runTransformations, Prod.mk.injEq] at h
    obtain ⟨hl, hst, -⟩ := h
    subst hl
    subst hst
    simp
  | cons t rest ih =>
    rw [List.cons_append]
    cases hg : get t.transformer with
    | none =>
      simp only [runTransformations, hg] at h ⊢
      cases hr : runTransformations get rest st with
      | mk lr pr =>
        rw [hr] at h
        simp only [Prod.mk.injEq] at h
        obtain ⟨hl, hpr⟩ := h
        have hrest : runTransformations get rest st = (lr, st1, none) := by
          rw [hr, hpr]
        rw [ih st lr hrest, ← hl]
        simp
    | some tr =>
      cases htr : tr.transform st t.options with
      | ok st2 =>
        simp only [runTransformations, hg, htr] at h ⊢
        cases hr : runTransformations get rest st2 with
        | mk lr pr =>
          rw [hr] at h
          simp only [Prod.mk.injEq] at h
          obtain ⟨hl, hpr⟩ := h
          have hrest : runTransformations get rest st2 = (lr, st1, none) := by
            rw [hr, hpr]
          rw [ih st2 lr hrest, ← hl]
          simp
      | error e =>
        simp only [runTransformations, hg, htr, Prod.mk.injEq] at h
        exact absurd h.2.2 (by simp)

/-- C2: a transform list split as `ts1 ++ t :: ts2`, where the prefix `ts1`
runs without error reaching world `st1` and the transformer resolved for `t`
throws on `st1`: the engine's result is the prefix's log followed only by the
failing entry's two log lines, the world `st1` (mutations of the prefix are
kept, nothing is rolled back), and the propagated error — independent of
`ts2`, so no transformer is invoked for any entry after the failing one. -/
theorem runTransformations_first_error_aborts {σ ω ε : Type}
    (get : String → Option (Transformer σ ω ε))
    (ts1 : List (TemplateTransform ω)) (t : TemplateTransform ω)
    (ts2 : List (TemplateTransform ω)) (st st1 : σ) (l1 : List LogEntry)
    (tr : Transformer σ ω ε) (e : ε)
    (h1 : runTransformations get ts1 st = (l1, st1, none))
    (h2 : get t.transformer = some tr)
    (h3 : tr.transform st1 t.options = .error e) :
    runTransformations get (ts1 ++ t :: ts2) st
      = (l1 ++ [.debug ("Running transformer: " ++ tr.name),
                .error ("Transformer " ++ tr.name ++ " failed:")],
         st1, some e) := by
  rw [runTransformations_append_ok get ts1 (t :: ts2) st st1 l1 h1]
  simp [runTransformations, h2, h3]

/-- C2 witness: a concrete one-entry pipeline whose transformer throws
aborts with that error, keeps the initial world, and logs the failure. -/
theorem runTransformations_first_error_aborts_witness :
    runTransformations
      (fun n => if n = "boom"
        then some (⟨"boom", "demo", fun _ _ => Except.error 7⟩ : Transformer Nat Unit Nat)
        else none)
      [{ type := .builtin, transformer := "boom" }] 0
      = ([.debug "Running transformer: boom", .error "Transformer boom failed:"],
         0, some 7) := by
  have h := runTransformations_first_error_aborts
    (fun n => if n = "boom"
      then some (⟨"boom", "demo", fun _ _ => Except.error 7⟩ : Transformer Nat Unit Nat)
      else none)
    [] { type := .builtin, transformer := "boom" } [] 0 0 []
    ⟨"boom", "demo", fun _ _ => Except.error 7⟩ 7 rfl (by simp) rfl
  simpa using h

/-- C3: an entry naming an unregistered transformer never raises: the
engine's final world and error are those of the resolvable entries alone
(so every remaining resolvable entry is still executed), and an unknown
entry contributes exactly one warning before the engine continues with the
next entry. -/
theorem runTransformations_skips_unknown {σ ω ε : Type}
    (get : String → Option (Transformer σ ω ε)) :
    (∀ (ts : List (TemplateTransform ω)) (st : σ),
      (runTransformations get ts st).2
        = (runTransformations get
            (ts.filter (fun t => (get t.transformer).isSome)) st).2)
    ∧ (∀ (t : TemplateTransform ω) (rest : List (TemplateTransform ω)) (st : σ),
      get t.transformer = none →
      runTransformations get (t :: rest) st
        = (.warn ("Unknown transformer: " ++ t.transformer ++ ", skipping...")
            :: (runTransformations get rest st).1,
           (runTransformations get rest st).2)) := by
  constructor
  · intro ts
    induction ts with
    | nil => intro st; rfl
    | cons t rest ih =>
      intro st
      cases hg : get t.transformer with
      | none => simp [runTransformations, hg, ih st]
      | some tr =>
        cases htr : tr.transform st t.options with
        | ok st2 => simp [runTransformations, hg, htr, ih st2]
        | error e => simp [runTransformations, hg, htr]
  · intro t rest st h
    simp [runTransformations, h]

/-- C3 witness: with an empty registry, a one-entry pipeline naming an
unknown transformer yields exactly one warning, the unchanged world, and no
error. -/
theorem runTransformations_skips_unknown_witness :
    runTransformations (σ := Nat) (ω := Unit) (ε := Unit) (fun _ => none)
      [{ type := .builtin, transformer := "ghost" }] 0
      = ([.warn "Unknown transformer: ghost, skipping..."], 0, none) := by
  have h := (runTransformations_skips_unknown
      (σ := Nat) (ω := Unit) (ε := Unit) (fun _ => none)).2
    { type := .builtin, transformer := "ghost" } [] 0 rfl
  simpa using h

/-! ## C1: the seeded registry -/

/-- C1 (code evaluated at the failing inputs): whatever the four seeded
behaviours are, the builtin registry resolves `rename-package`, `env-setup`,
`toggle-feature` and `readme-personalize`, but `monorepo-adapt` and
`tsconfig-adapt` resolve to nothing, and the engine run on the two
structural transform entries prepended by the create command skips both with
"Unknown transformer" warnings instead of executing them. -/
theorem builtin_registry_omits_structural_transformers {σ ω ε : Type}
    (renameB envB toggleB readmeB : σ → Option ω → Except ε σ) :
    (getTransformer (builtinTransformers renameB envB toggleB readmeB)
        "rename-package").isSome = true
    ∧ (getTransformer (builtinTransformers renameB envB toggleB readmeB)
        "env-setup").isSome = true
    ∧ (getTransformer (builtinTransformers renameB envB toggleB readmeB)
        "toggle-feature").isSome = true
    ∧ (getTransformer (builtinTransformers renameB envB toggleB readmeB)
        "readme-personalize").isSome = true
    ∧ getTransformer (builtinTransformers renameB envB toggleB readmeB)
        "monorepo-adapt" = none
    ∧ getTransformer (builtinTransformers renameB envB toggleB readmeB)
        "tsconfig-adapt" = none
    ∧ (∀ st : σ,
      runTransformations
        (getTransformer (builtinTransformers renameB envB toggleB readmeB))
        [{ type := .builtin, transformer := "monorepo-adapt" },
         { type := .builtin, transformer := "tsconfig-adapt" }] st
        = ([.warn "Unknown transformer: monorepo-adapt, skipping...",
            .warn "Unknown transformer: tsconfig-adapt, skipping..."],
           st, none)) := by
  refine ⟨rfl, rfl, rfl, rfl, rfl, rfl, fun st => rfl⟩

/-! ## C7: compiler-config adaptation preserves and overwrites exactly the
right keys -/

/-- C7: whenever `tsconfig-adapt` actually reaches the merge (monorepo mode,
a monorepo context, tsconfig settings with an override map, a parseable
project tsconfig), the resulting `compilerOptions` is the JS spread of the
original options with the overrides: keys absent from the override set keep
their original value, keys present in the override set get the override's
value, and a key exists afterwards iff it existed before or is an override
key. -/
theorem tsconfigAdapt_merges_overrides
    (ctx : TransformContext) (mc : MonorepoContext) (tset : MonorepoTsconfig)
    (ovr : JObj) (tc : TsConfigFile)
    (hmode : ctx.mode = InstallationMode.monorepo)
    (hmc : ctx.monorepoContext = some mc)
    (hset : (ctx.templateConfig.bind (·.monorepo)).bind (·.tsconfig) = some tset)
    (hovr : tset.overrides = some ovr) :
    stateCompilerOptions (tsconfigAdaptTransform ctx (.parsed tc))
      = some (objSpread (tc.compilerOptions.getD []) ovr)
    ∧ (∀ k, jlookup ovr k = none →
        jlookup (objSpread (tc.compilerOptions.getD []) ovr) k
          = jlookup (tc.compilerOptions.getD []) k)
    ∧ (∀ k v, jlookup ovr k = some v →
        jlookup (objSpread (tc.compilerOptions.getD []) ovr) k = some v)
    ∧ (∀ k, (jlookup (objSpread (tc.compilerOptions.getD []) ovr) k).isSome
          ↔ ((jlookup (tc.compilerOptions.getD []) k).isSome
              ∨ (jlookup ovr k).isSome)) := by
  refine ⟨?_, ?_, ?_, ?_⟩
  · cases hext : tset.«extends» with
    | none =>
      cases hbase : mc.baseTsconfig with
      | none =>
        simp [tsconfigAdaptTransform, hmode, hmc, hset, hovr, hext, hbase,
          stateCompilerOptions]
      | some b =>
        simp [tsconfigAdaptTransform, hmode, hmc, hset, hovr, hext, hbase,
          stateCompilerOptions]
    | some e =>
      simp [tsconfigAdaptTransform, hmode, hmc, hset, hovr, hext,
        stateCompilerOptions]
  · intro k hk
    simp [jlookup_objSpread, hk]
  · intro k v hk
    simp [jlookup_objSpread, hk]
  · intro k
    rw [jlookup_objSpread]
    cases jlookup ovr k <;> cases jlookup (tc.compilerOptions.getD []) k <;>
      simp [Option.or]

/-- C7 witness: on the sample context and sample tsconfig, `tsconfig-adapt`
produces exactly the original options extended and overwritten by the
override map. -/
theorem tsconfigAdapt_merges_overrides_witness :
    stateCompilerOptions (tsconfigAdaptTransform sampleCtx (.parsed sampleTsFile))
      = some [("strict", .bool true), ("target", .str "ES2022"),
              ("outDir", .str "dist")] := by
  have h := tsconfigAdapt_merges_overrides sampleCtx sampleMonorepoCtx
    { overrides := some [("outDir", .str "dist")] }
    [("outDir", .str "dist")] sampleTsFile rfl rfl rfl rfl
  exact h.1.trans (by decide)

/-! ## C5 and C10: the upward walk of the monorepo detector -/

/-- C5: `detectMonorepo` is a total function of the disk snapshot (so it
never throws), and whenever it returns a context, that context's root is the
nearest ancestor of the start — the longest prefix, the start itself
included — that contains the `turbo.json` marker. -/
theorem detectMonorepo_root_is_nearest_marker (d : DiskState) (s : Path)
    (ctx : MonorepoContext) (h : detectMonorepo d s = some ctx) :
    ctx.rootDir <+: s
    ∧ hasTurboMarker d ctx.rootDir = true
    ∧ (∀ q, q <+: s → hasTurboMarker d q = true → q.length ≤ ctx.rootDir.length) := by
  by_cases hnil : s = []
  · rw [detectMonorepo] at h
    simp [hnil] at h
  · by_cases hm : hasTurboMarker d s
    · rw [detectMonorepo] at h
      simp only [hnil, hm, dite_false, if_true, dif_neg, not_false_iff,
        Option.some.injEq] at h
      subst h
      refine ⟨?_, ?_, ?_⟩
      · simp [buildMonorepoContext]
      · simpa [buildMonorepoContext] using hm
      · intro q hq _
        simpa [buildMonorepoContext] using hq.length_le
    · rw [detectMonorepo] at h
      simp only [hnil, hm, dif_neg, not_false_iff, if_false,
        Bool.false_eq_true] at h
      have ih := detectMonorepo_root_is_nearest_marker d s.dropLast ctx h
      refine ⟨ih.1.trans (List.dropLast_prefix s), ih.2.1, ?_⟩
      intro q hq hqm
      by_cases hqs : q = s
      · subst hqs
        exact absurd hqm (by simpa using hm)
      · have hlt : q.length < s.length :=
          lt_of_le_of_ne hq.length_le (fun he => hqs (hq.eq_of_length he))
        have hq' : q <+: s.dropLast := by
          rw [List.prefix_iff_eq_take] at hq ⊢
          rw [List.dropLast_eq_take, List.take_take]
          have hmin : min q.length (s.length - 1) = q.length :=
            Nat.min_eq_left (by omega)
          rw [hmin]
          exact hq
        exact ih.2.2 q hq' hqm
termination_by s.length
decreasing_by
  simp only [List.length_dropLast]
  have : s.length ≠ 0 := fun hz => hnil (List.length_eq_zero.mp hz)
  omega

/-- C5 witness: from `/ws/apps/my-app` on the sample disk, the detector's
root is `/ws`, which carries the marker and is the deepest marker-bearing
prefix of the start. -/
theorem detectMonorepo_root_is_nearest_marker_witness :
    (buildMonorepoContext sampleDisk ["ws"]).rootDir <+: ["ws", "apps", "my-app"]
    ∧ hasTurboMarker sampleDisk (buildMonorepoContext sampleDisk ["ws"]).rootDir = true
    ∧ (∀ q, q <+: (["ws", "apps", "my-app"] : Path) →
        hasTurboMarker sampleDisk q = true →
        q.length ≤ (buildMonorepoContext sampleDisk ["ws"]).rootDir.length) := by
  refine detectMonorepo_root_is_nearest_marker sampleDisk ["ws", "apps", "my-app"]
    (buildMonorepoContext sampleDisk ["ws"]) ?_
  rw [detectMonorepo, dif_neg (by decide : ¬(["ws", "apps", "my-app"] : Path) = []),
    if_neg (by decide : ¬(hasTurboMarker sampleDisk ["ws", "apps", "my-app"] = true))]
  show detectMonorepo sampleDisk ["ws", "apps"] = _
  rw [detectMonorepo, dif_neg (by decide : ¬(["ws", "apps"] : Path) = []),
    if_neg (by decide : ¬(hasTurboMarker sampleDisk ["ws", "apps"] = true))]
  show detectMonorepo sampleDisk ["ws"] = _
  rw [detectMonorepo, dif_neg (by decide : ¬(["ws"] : Path) = []),
    if_pos (by decide : hasTurboMarker sampleDisk ["ws"] = true)]

/-- The walk returns the "not a monorepo" result whenever no directory it
probes — the nonempty prefixes of the start — has the marker. -/
theorem detectMonorepo_none_of_no_marker (d : DiskState) (s : Path)
    (hno : ∀ q, q <+: s → q ≠ [] → hasTurboMarker d q = false) :
    detectMonorepo d s = none := by
  by_cases hnil : s = []
  · subst hnil
    rw [detectMonorepo]
    simp
  · have hm : hasTurboMarker d s = false := hno s List.prefix_rfl hnil
    rw [detectMonorepo]
    simp only [hnil, hm, dif_neg, not_false_iff, if_false, Bool.false_eq_true]
    exact detectMonorepo_none_of_no_marker d s.dropLast
      (fun q hq hq0 => hno q (hq.trans (List.dropLast_prefix s)) hq0)
termination_by s.length
decreasing_by
  simp only [List.length_dropLast]
  have : s.length ≠ 0 := fun hz => hnil (List.length_eq_zero.mp hz)
  omega

/-- C10: the walk never probes the filesystem root `/` for the marker:
started at `/` it returns the "not a monorepo" result outright, and a walk
started anywhere stops before `/` — if no nonempty prefix of the start has
the marker, the result is `none` no matter what sits in `/` itself. -/
theorem detectMonorepo_never_probes_filesystem_root (d : DiskState) :
    detectMonorepo d [] = none
    ∧ (∀ s : Path, (∀ q ∈ s.inits, q ≠ [] → hasTurboMarker d q = false) →
        detectMonorepo d s = none) := by
  constructor
  · rw [detectMonorepo]
    simp
  · intro s hno
    exact detectMonorepo_none_of_no_marker d s
      (fun q hq hq0 => hno q ((List.mem_inits q s).mpr hq) hq0)

/-- C10 witness: on a disk whose only marker sits in the filesystem root,
the root marker is real, yet a walk from `/a/b` reports "not a monorepo". -/
theorem detectMonorepo_never_probes_filesystem_root_witness :
    hasTurboMarker { files := [["turbo.json"]], manifests := [] } [] = true
    ∧ detectMonorepo { files := [["turbo.json"]], manifests := [] } ["a", "b"] = none := by
  refine ⟨by decide, ?_⟩
  exact (detectMonorepo_never_probes_filesystem_root
    { files := [["turbo.json"]], manifests := [] }).2 ["a", "b"] (by decide)

/-! ## C6: package-manager priority and workspace-config resolution -/

/-- C6: at a found workspace root, the package manager follows the strict
priority pnpm-lock.yaml → yarn.lock → bun.lockb → package-lock.json, then a
recognised `packageManager` manifest field, then the default `pnpm` — the
default tier covering every fall-through: missing or unparsable manifest,
absent field, empty (falsy) field, and unrecognised manager name; and the
context's `workspaceConfigPath` is set exactly when the resolved manager is
pnpm and `pnpm-workspace.yaml` exists at the root, and is unset for every
other manager. -/
theorem packageManager_priority_and_workspace_config (d : DiskState) (root : Path) :
    (fileExists d (root ++ ["pnpm-lock.yaml"]) = true →
      detectPackageManagerFromRoot d root = .pnpm)
    ∧ (fileExists d (root ++ ["pnpm-lock.yaml"]) = false →
       fileExists d (root ++ ["yarn.lock"]) = true →
      detectPackageManagerFromRoot d root = .yarn)
    ∧ (fileExists d (root ++ ["pnpm-lock.yaml"]) = false →
       fileExists d (root ++ ["yarn.lock"]) = false →
       fileExists d (root ++ ["bun.lockb"]) = true →
      detectPackageManagerFromRoot d root = .bun)
    ∧ (fileExists d (root ++ ["pnpm-lock.yaml"]) = false →
       fileExists d (root ++ ["yarn.lock"]) = false →
       fileExists d (root ++ ["bun.lockb"]) = false →
       fileExists d (root ++ ["package-lock.json"]) = true →
      detectPackageManagerFromRoot d root = .npm)
    ∧ (∀ pkg s pm, findLockfilePM d root = none →
       readManifest d (root ++ ["package.json"]) = some pkg →
       pkg.packageManager = some s → s ≠ "" →
       parsePackageManager ((s.splitOn "@").headD "") = some pm →
      detectPackageManagerFromRoot d root = pm)
    ∧ (findLockfilePM d root = none →
       readManifest d (root ++ ["package.json"]) = none →
      detectPackageManagerFromRoot d root = .pnpm)
    ∧ (∀ pkg, findLockfilePM d root = none →
       readManifest d (root ++ ["package.json"]) = some pkg →
       pkg.packageManager = none →
      detectPackageManagerFromRoot d root = .pnpm)
    ∧ (∀ pkg, findLockfilePM d root = none →
       readManifest d (root ++ ["package.json"]) = some pkg →
       pkg.packageManager = some "" →
      detectPackageManagerFromRoot d root = .pnpm)
    ∧ (∀ pkg s, findLockfilePM d root = none →
       readManifest d (root ++ ["package.json"]) = some pkg →
       pkg.packageManager = some s → s ≠ "" →
       parsePackageManager ((s.splitOn "@").headD "") = none →
      detectPackageManagerFromRoot d root = .pnpm)
    ∧ (buildMonorepoContext d root).packageManager = detectPackageManagerFromRoot d root
    ∧ (∀ p, (buildMonorepoContext d root).workspaceConfigPath = some p →
        detectPackageManagerFromRoot d root = .pnpm
        ∧ fileExists d (root ++ ["pnpm-workspace.yaml"]) = true
        ∧ p = root ++ ["pnpm-workspace.yaml"])
    ∧ (detectPackageManagerFromRoot d root ≠ .pnpm →
        (buildMonorepoContext d root).workspaceConfigPath = none)
    ∧ (fileExists d (root ++ ["pnpm-workspace.yaml"]) = false →
        (buildMonorepoContext d root).workspaceConfigPath = none)
    ∧ (detectPackageManagerFromRoot d root = .pnpm →
       fileExists d (root ++ ["pnpm-workspace.yaml"]) = true →
        (buildMonorepoContext d root).workspaceConfigPath
          = some (root ++ ["pnpm-workspace.yaml"])) := by
  refine ⟨?_, ?_, ?_, ?_, ?_, ?_, ?_, ?_, ?_, ?_, ?_, ?_, ?_, ?_⟩
  · intro h1
    simp [detectPackageManagerFromRoot, findLockfilePM, lockfiles, List.find?, h1]
  · intro h1 h2
    simp [detectPackageManagerFromRoot, findLockfilePM, lockfiles, List.find?, h1, h2]
  · intro h1 h2 h3
    simp [detectPackageManagerFromRoot, findLockfilePM, lockfiles, List.find?,
      h1, h2, h3]
  · intro h1 h2 h3 h4
    simp [detectPackageManagerFromRoot, findLockfilePM, lockfiles, List.find?,
      h1, h2, h3, h4]
  · intro pkg s pm hlock hpkg hs hne hpm
    simp only [List.headD_eq_head?_getD] at hpm
    simp [detectPackageManagerFromRoot, hlock, hpkg, hs, hne, hpm]
  · intro hlock hpkg
    simp [detectPackageManagerFromRoot, hlock, hpkg]
  · intro pkg hlock hpkg hfield
    simp [detectPackageManagerFromRoot, hlock, hpkg, hfield]
  · intro pkg hlock hpkg hfield
    simp [detectPackageManagerFromRoot, hlock, hpkg, hfield]
  · intro pkg s hlock hpkg hfield hne hparse
    simp only [List.headD_eq_head?_getD] at hparse
    simp [detectPackageManagerFromRoot, hlock, hpkg, hfield, hne, hparse]
  · rfl
  · intro p hp
    by_cases hpm : detectPackageManagerFromRoot d root = .pnpm
    · by_cases hex : fileExists d (root ++ ["pnpm-workspace.yaml"]) = true
      · refine ⟨hpm, hex, ?_⟩
        have hv : root ++ ["pnpm-workspace.yaml"] = p := by
          simpa [buildMonorepoContext, findWorkspaceConfig, hpm, hex] using hp
        exact hv.symm
      · simp [buildMonorepoContext, findWorkspaceConfig, hpm] at hp
        exact absurd hp.1 hex
    · simp [buildMonorepoContext, findWorkspaceConfig, hpm] at hp
  · intro hpm
    simp [buildMonorepoContext, findWorkspaceConfig, hpm]
  · intro hex
    by_cases hpm : detectPackageManagerFromRoot d root = .pnpm
    · simp [buildMonorepoContext, findWorkspaceConfig, hpm, hex]
    · simp [buildMonorepoContext, findWorkspaceConfig, hpm]
  · intro hpm hex
    simp [buildMonorepoContext, findWorkspaceConfig, hpm, hex]

/-- C6 witness: spec scenario A — root `/ws` with the marker and a pnpm
lockfile, no `pnpm-workspace.yaml`: manager pnpm, no workspace-config path;
and the default tier at `/ws2`, whose manifest carries a falsy
`packageManager` field and no lockfile exists: default pnpm. -/
theorem packageManager_priority_and_workspace_config_witness :
    detectPackageManagerFromRoot sampleDisk ["ws"] = .pnpm
    ∧ (buildMonorepoContext sampleDisk ["ws"]).workspaceConfigPath = none
    ∧ detectPackageManagerFromRoot sampleDiskEmptyField ["ws2"] = .pnpm := by
  obtain ⟨h1, -, -, -, -, -, -, -, -, -, -, -, h13, -⟩ :=
    packageManager_priority_and_workspace_config sampleDisk ["ws"]
  obtain ⟨-, -, -, -, -, -, -, h8, -, -, -, -, -, -⟩ :=
    packageManager_priority_and_workspace_config sampleDiskEmptyField ["ws2"]
  exact ⟨h1 (by decide), h13 (by decide),
    h8 { packageManager := some "" } (by decide) (by decide) rfl⟩

/-! ## C8: feature-toggle pruning and idempotence

Removals by `rm -rf` commute and compose into a single `filter`, which lets
the transformer be characterised as one pass over the tree.  Idempotence
holds only when the in-tree feature map does not shadow the options-supplied
entries: the counterexample below shows a second run deleting a path the
first run spared. -/

theorem foldl_rmRec_eq_filter (pp : Path) (ps : List Path) (tree : FileTree) :
    ps.foldl (fun t p => rmRec t (pp ++ p)) tree
      = tree.filter (fun e => ps.all (fun r => !(List.isPrefixOf (pp ++ r) e.1))) := by
  induction ps generalizing tree with
  | nil => simp
  | cons r ps ih =>
    simp only [List.foldl_cons]
    rw [ih]
    unfold rmRec
    rw [List.filter_filter]
    refine List.filter_congr ?_
    intro a _
    simp [List.all_cons, Bool.and_comm]

theorem removeFeaturePaths_cons (pp : Path) (sel : List String)
    (kv : String × List Path) (m : List (String × List Path)) (tree : FileTree) :
    removeFeaturePaths pp sel (kv :: m) tree
      = removeFeaturePaths pp sel m
          (if kv.1 ∈ sel then tree
           else kv.2.foldl (fun t p => rmRec t (pp ++ p)) tree) := rfl

theorem removalRoots_cons (kv : String × List Path)
    (m : List (String × List Path)) (sel : List String) :
    removalRoots (kv :: m) sel
      = if kv.1 ∈ sel then removalRoots m sel
        else kv.2 ++ removalRoots m sel := rfl

theorem removeFeaturePaths_eq_filter (pp : Path) (sel : List String)
    (m : List (String × List Path)) (tree : FileTree) :
    removeFeaturePaths pp sel m tree
      = tree.filter (fun e =>
          (removalRoots m sel).all (fun r => !(List.isPrefixOf (pp ++ r) e.1))) := by
  induction m generalizing tree with
  | nil => simp [removeFeaturePaths, removalRoots]
  | cons kv m ih =>
    rw [removeFeaturePaths_cons, removalRoots_cons]
    by_cases hsel : kv.1 ∈ sel
    · rw [if_pos hsel, if_pos hsel, ih]
    · rw [if_neg hsel, if_neg hsel, ih, foldl_rmRec_eq_filter, List.filter_filter]
      refine List.filter_congr ?_
      intro a _
      simp [List.all_append, Bool.and_comm]

/-- One-pass characterisation of `toggle-feature`: it keeps exactly the
files outside `.fast-dev` and outside every removal root of the merged map
for an unselected feature. -/
theorem toggleFeatureTransform_eq_filter (ctx : TransformContext)
    (opts : Option ToggleOpts) (tree : FileTree) :
    toggleFeatureTransform ctx opts tree
      = tree.filter (fun e =>
          (!(List.isPrefixOf (ctx.projectPath ++ [".fast-dev"]) e.1))
          && (removalRoots (toggleMergedMap ctx opts tree)
                (toggleSelected ctx opts)).all
               (fun r => !(List.isPrefixOf (ctx.projectPath ++ r) e.1))) := by
  simp only [toggleFeatureTransform]
  rw [removeFeaturePaths_eq_filter]
  unfold rmRec
  rw [List.filter_filter]

theorem readFeaturesFile_filter_none (tree : FileTree) (P : Path × FData → Bool)
    (p : Path) (h : ∀ x ∈ tree.filter P, x.1 ≠ p) :
    readFeaturesFile (tree.filter P) p = none := by
  unfold readFeaturesFile
  have hfind : (tree.filter P).find? (fun e => e.1 == p) = none :=
    List.find?_eq_none.mpr (fun x hx => by simpa using h x hx)
  rw [hfind]

/-- The first run deletes the in-tree feature map (it sits below
`.fast-dev`), so a second run reads no in-tree map. -/
theorem readFeaturesFile_after_toggle (ctx : TransformContext)
    (opts : Option ToggleOpts) (tree : FileTree) :
    readFeaturesFile (toggleFeatureTransform ctx opts tree)
      (featuresFilePath ctx) = none := by
  rw [toggleFeatureTransform_eq_filter]
  apply readFeaturesFile_filter_none
  intro x hx hxp
  have hP := (List.mem_filter.mp hx).2
  rw [Bool.and_eq_true] at hP
  have hpre : List.isPrefixOf (ctx.projectPath ++ [".fast-dev"]) x.1 = true := by
    rw [hxp]
    exact (List.isPrefixOf_iff_prefix).mpr
      ⟨["features.json"], by simp [featuresFilePath]⟩
  rw [hpre] at hP
  simp at hP

/-- C8 counterexample: with an options feature map `{x: ["a"]}` shadowed by
the in-tree map `{x: ["b"]}` and nothing selected, the first run removes
`b` and the feature-map file, and the second run — now seeing only the
options map — removes `a` as well: running twice differs from running
once. -/
theorem toggleFeature_not_idempotent :
    toggleFeatureTransform toggleDemoCtx toggleDemoOpts
        (toggleFeatureTransform toggleDemoCtx toggleDemoOpts toggleDemoTree)
      ≠ toggleFeatureTransform toggleDemoCtx toggleDemoOpts toggleDemoTree := by
  decide

/-- C8 (amended): feature-toggle pruning is idempotent whenever every path
the options-supplied map alone would remove is also slated for removal by
the merged (options + in-tree) map of the first run — in particular
whenever the in-tree map does not shadow an options entry for an unselected
feature, e.g. when the options supply no feature map or no in-tree map
exists.  Without that condition a second run can delete additional paths,
because the first run deletes the in-tree map that had overridden the
options entry. -/
theorem toggleFeature_idempotent_under_coverage (ctx : TransformContext)
    (opts : Option ToggleOpts) (tree : FileTree)
    (hcov : ∀ p ∈ removalRoots (toggleBaseMap opts) (toggleSelected ctx opts),
        p ∈ removalRoots (toggleMergedMap ctx opts tree) (toggleSelected ctx opts)) :
    toggleFeatureTransform ctx opts (toggleFeatureTransform ctx opts tree)
      = toggleFeatureTransform ctx opts tree := by
  have hmerged2 : toggleMergedMap ctx opts (toggleFeatureTransform ctx opts tree)
      = toggleBaseMap opts := by
    unfold toggleMergedMap
    rw [readFeaturesFile_after_toggle]
  rw [toggleFeatureTransform_eq_filter ctx opts
    (toggleFeatureTransform ctx opts tree), hmerged2]
  apply List.filter_eq_self.mpr
  intro a ha
  rw [toggleFeatureTransform_eq_filter] at ha
  have hP := (List.mem_filter.mp ha).2
  rw [Bool.and_eq_true] at hP
  rw [Bool.and_eq_true]
  refine ⟨hP.1, ?_⟩
  rw [List.all_eq_true]
  intro r hr
  exact (List.all_eq_true.mp hP.2) r (hcov r hr)

/-- C8 witness: without an options feature map the coverage condition holds
vacuously, and pruning the sample tree twice equals pruning it once. -/
theorem toggleFeature_idempotent_under_coverage_witness :
    toggleFeatureTransform toggleDemoCtx none
        (toggleFeatureTransform toggleDemoCtx none toggleDemoTree)
      = toggleFeatureTransform toggleDemoCtx none toggleDemoTree := by
  apply toggleFeature_idempotent_under_coverage
  decide

end FastDev
